import Mathlib

/-!
Shallow embedding of the maildump SMTP acceptor (src/main.go).

The program is a per-connection SMTP protocol handler.  Its pure core is
embedded here as executable Lean definitions:

* the `ReplyCode` / `Command` constants and the `commandTable` / `replyTable`
  maps (main.go lines 15-66);
* `readCommand` (lines 68-84), the byte-at-a-time line reader, modelled over
  the list of bytes the peer will deliver before the connection read fails
  (reaching the end of the list models `conn.Read` returning an error, which
  covers EOF as well as I/O errors);
* `replyCommand` (lines 86-101), which trims the line, splits on single
  spaces, upper-cases the first token, and produces exactly one reply plus
  the parsed command.  Go map lookup `commandTable[tok]` yields the zero
  value of the `Command` int type (that is `CommandEhlo = 0`) together with
  `exists = false` when the token is absent; the model mirrors this by
  returning `Command.ehlo` in the `none` branch;
* `toIPAddress` / `isSpammerAddr` (lines 103-127), with DNS abstracted as a
  boolean oracle `lookup : String → Bool` (`lookup q = true` models
  `net.LookupHost q` returning `err == nil`; every kind of lookup error is
  the `false` case, which the code treats uniformly);
* `sanitizeAddr` (lines 129-141), whose Go regular expression
  `(MAIL|RCPT) (FROM|TO|From|To):.*<([^>]+)>` (leftmost-first, unanchored,
  greedy, with `.` not matching a newline) is embedded as the explicit
  search function `findAddrMatch`, and whose replacement regex
  `[^a-zA-Z0-9@]+ -> .` is embedded as `collapseRuns`;
* the session loop of `handleConn` (lines 164-240) as `processLine` /
  `sessionLoop` / `finalizeSession` / `runSession`, over the same byte-list
  model of the connection.

Strings are modelled with Lean `String`, and the Go standard-library string
helpers used by the source (`strings.TrimSpace`, `strings.Split`,
`strings.ToUpper`, `strings.Join`) are embedded as structurally recursive
functions over `List Char` (`trimSpace`, `splitOnChar`, `intercalateChar`,
`Char.toUpper`), so that every definition evaluates inside the kernel.  The
Go versions additionally handle non-ASCII whitespace and letters, which
never occur in the protocol tokens involved.
-/

/-- Go `unicode.IsSpace` restricted to ASCII (space, tab, newline, vertical
tab, form feed, carriage return), the characters `strings.TrimSpace`
removes from ASCII text. -/
def asciiSpace (c : Char) : Bool :=
  c = ' ' || c = Char.ofNat 9 || c = Char.ofNat 10 || c = Char.ofNat 11 ||
  c = Char.ofNat 12 || c = Char.ofNat 13

/-- Go `strings.TrimSpace` on ASCII text: drop whitespace from both ends. -/
def trimSpace (s : String) : String :=
  String.mk (((s.toList.dropWhile asciiSpace).reverse.dropWhile asciiSpace).reverse)

/-- Go `strings.Split` with a one-character separator. -/
def splitOnChar (sep : Char) : List Char → List (List Char)
  | [] => [[]]
  | c :: rest =>
    let r := splitOnChar sep rest
    if c = sep then [] :: r
    else
      match r with
      | [] => [[c]]
      | h :: t => (c :: h) :: t

/-- Go `strings.Join` with a one-character separator. -/
def intercalateChar (sep : Char) : List (List Char) → List Char
  | [] => []
  | [x] => x
  | x :: y :: xs => x ++ sep :: intercalateChar sep (y :: xs)

/-- Go `type ReplyCode string` (main.go line 15). -/
abbrev ReplyCode := String

/-- Reply constant from main.go line 19. -/
def ReplyServiceReady : ReplyCode := "220 mail.lf.lc ESMTP dumptruck"

/-- Reply constant from main.go line 20. -/
def ReplyServiceClosing : ReplyCode := "221 goodbye"

/-- Reply constant from main.go line 21. -/
def ReplyOkay : ReplyCode := "250 yes sir"

/-- Reply constant from main.go line 22; the byte 39 is the ASCII apostrophe
occurring in the Go literal between `fill` and `er up`. -/
def ReplyStartMailInput : ReplyCode := "354 fill " ++ String.mk [Char.ofNat 39] ++ "er up"

/-- Reply constant from main.go line 23 (never used by the handler). -/
def ReplyServiceNotAvailable : ReplyCode := "421 not at the moment"

/-- Reply constant from main.go line 24. -/
def ReplyCommandNotImplemented : ReplyCode := "502 *shrugs*"

/-- Go `type Command int` with the eleven `iota` constants of main.go lines
27-39.  The constructors are listed in `iota` order, so `Command.ehlo` is the
value `0`, the zero value of the Go type.  There is no `UNKNOWN` member in the
source. -/
inductive Command where
  | ehlo
  | helo
  | mail
  | rcpt
  | data
  | rset
  | vrfy
  | expn
  | help
  | noop
  | quit
deriving DecidableEq

/-- Go `replyTable` map (main.go lines 41-52).  The map has no entry for
`CommandHelo` (the string "HELO" is mapped to `CommandEhlo` by
`commandTable`), hence the `none` result for `Command.helo`. -/
def replyTable : Command → Option ReplyCode
  | Command.ehlo => some ReplyOkay
  | Command.helo => none
  | Command.mail => some ReplyOkay
  | Command.rcpt => some ReplyOkay
  | Command.data => some ReplyStartMailInput
  | Command.rset => some ReplyOkay
  | Command.vrfy => some ReplyOkay
  | Command.expn => some ReplyCommandNotImplemented
  | Command.help => some ReplyCommandNotImplemented
  | Command.noop => some ReplyOkay
  | Command.quit => some ReplyServiceClosing

/-- Go `commandTable` map (main.go lines 54-66), written as a decision chain
over the eleven distinct keys; both "EHLO" and "HELO" map to `CommandEhlo`. -/
def commandTable (s : String) : Option Command :=
  if s = "EHLO" then some Command.ehlo
  else if s = "HELO" then some Command.ehlo
  else if s = "MAIL" then some Command.mail
  else if s = "RCPT" then some Command.rcpt
  else if s = "DATA" then some Command.data
  else if s = "RSET" then some Command.rset
  else if s = "VRFY" then some Command.vrfy
  else if s = "EXPN" then some Command.expn
  else if s = "HELP" then some Command.help
  else if s = "NOOP" then some Command.noop
  else if s = "QUIT" then some Command.quit
  else none

/-- ASCII newline byte, the terminator tested by `readCommand`. -/
def newlineByte : UInt8 := 10

/-- ASCII dot byte, tested by `handleConn` against `rawData[0]`. -/
def dotByte : UInt8 := 46

/-- Loop body of Go `readCommand` (main.go lines 68-84).  `buf` is the list
of bytes copied into the caller buffer so far (the Go `buf[0:length]`), `cap`
is `cap(buf)`, and the third argument is the stream of bytes still available
from `conn.Read`.  Each list element is one successfully read byte
(`bytesRead == 1`); exhausting the list models the read returning an error,
upon which the Go function returns `(0, err)` and the partial data is
discarded — modelled by `none`.  Note that the `datum[0] == '\n'` test sits
inside the `length < cap(buf)` branch, exactly as in the source: once the
buffer is full, a newline no longer terminates the read. -/
def readCommandAux (cap : Nat) (buf : List UInt8) : List UInt8 → Option (List UInt8 × List UInt8)
  | [] => none
  | d :: rest =>
    if buf.length < cap then
      if d = newlineByte then some (buf ++ [d], rest)
      else readCommandAux cap (buf ++ [d]) rest
    else readCommandAux cap buf rest

/-- Go `readCommand` (main.go lines 68-84): starts with `length = 0`.  A
`some (b, rest)` result models the Go return `(len b, nil)` with `b` the
bytes written into the buffer and `rest` the bytes still unconsumed on the
connection; `none` models the `(0, err)` return. -/
def readCommand (cap : Nat) (src : List UInt8) : Option (List UInt8 × List UInt8) :=
  readCommandAux cap [] src

/-- Go `replyCommand` (main.go lines 86-101).  Returns the single reply line
written with `fmt.Fprintln` (exactly one per call, on every control path of
the source) together with the returned `Command`.  The `none` branch is the
Go `else { fmt.Fprintln(conn, ReplyOkay) }` with `cmd` left at the map
lookup zero value `CommandEhlo`; the `Option.getD` models the inner
`if exists ... else ReplyCommandNotImplemented` on the reply table. -/
def replyCommand (line : String) : ReplyCode × Command :=
  let trimmed := trimSpace line
  let args := splitOnChar ' ' trimmed.toList
  let tok := String.mk ((args.headD []).map Char.toUpper)
  match commandTable tok with
  | some cmd => ((replyTable cmd).getD ReplyCommandNotImplemented, cmd)
  | none => (ReplyOkay, Command.ehlo)

/-- Go `toIPAddress` (main.go lines 103-114): take the text before the first
colon of `addr.String()`, split it on dots, reverse the components with the
in-place swap loop (which is exactly list reversal), and join them with
dots.  Note that the result is the REVERSED dotted form (the DNSBL query
prefix), not the original IP literal. -/
def toIPAddress (addr : String) : String :=
  let ipAddress := (splitOnChar ':' addr.toList).headD []
  let dots := splitOnChar '.' ipAddress
  String.mk (intercalateChar '.' dots.reverse)

/-- Go `serverBlocklist` (main.go line 116). -/
def serverBlocklist : List String :=
  [".zen.spamhaus.org", ".bl.spamcop.net", ".b.barracudacentral.org", ".dnsbl.sorbs.net"]

/-- Loop of Go `isSpammerAddr` (main.go lines 118-127).  `lookup q = true`
models `net.LookupHost q` returning with `err == nil`; every failing lookup,
whatever the error, is the `false` case, and the loop treats all of them
identically by moving on to the next zone.  The first successful lookup
returns `true` immediately. -/
def checkBlocklist (lookup : String → Bool) (ip : String) : List String → Bool
  | [] => false
  | z :: rest => if lookup (ip ++ z) then true else checkBlocklist lookup ip rest

/-- Trace of the `net.LookupHost` calls the `isSpammerAddr` loop actually
performs, in order: after a successful lookup no further zone is queried. -/
def blocklistQueries (lookup : String → Bool) (ip : String) : List String → List String
  | [] => []
  | z :: rest =>
    if lookup (ip ++ z) then [ip ++ z]
    else (ip ++ z) :: blocklistQueries lookup ip rest

/-- Go `isSpammerAddr` (main.go lines 118-127). -/
def isSpammerAddr (lookup : String → Bool) (addr : String) : Bool :=
  checkBlocklist lookup (toIPAddress addr) serverBlocklist

/-- Go `defaultAddr` (main.go line 129). -/
def defaultAddr : String := "invalid@addr"

/-- Character class `[a-zA-Z0-9@]` of the replacement regex in
`sanitizeAddr` (main.go line 135). -/
def isAllowedChar (c : Char) : Bool :=
  (('a' ≤ c && c ≤ 'z') || ('A' ≤ c && c ≤ 'Z') || ('0' ≤ c && c ≤ '9') || c = '@')

/-- Go `re.ReplaceAllString(addr, ".")` for the regex `[^a-zA-Z0-9@]+`
(main.go lines 135-137): every maximal run of characters outside the class
is replaced by a single dot.  The boolean records whether the previous
character belonged to such a run. -/
def collapseRuns (prevDisallowed : Bool) : List Char → List Char
  | [] => []
  | c :: rest =>
    if isAllowedChar c then c :: collapseRuns false rest
    else if prevDisallowed then collapseRuns true rest
    else '.' :: collapseRuns true rest

/-- One literal alternative of the prefix
`(MAIL|RCPT) (FROM|TO|From|To):` of the match regex (main.go line 132):
if `p` is a prefix of `s`, consume it. -/
def stripLit (p : String) (s : List Char) : Option (List Char) :=
  if p.toList.isPrefixOf s then some (s.drop p.toList.length) else none

/-- All eight spellings generated by `(MAIL|RCPT) (FROM|TO|From|To):`.  The
keyword part of the Go regex is case-sensitive: only these eight literal
strings can start a match. -/
def keywordAlternatives : List String :=
  ["MAIL FROM:", "MAIL TO:", "MAIL From:", "MAIL To:",
   "RCPT FROM:", "RCPT TO:", "RCPT From:", "RCPT To:"]

/-- Try the keyword alternatives in order at the current position.  At any
fixed position at most one of the eight distinct literals matches, so the
order is immaterial; it is kept as in the regex. -/
def stripAny (ps : List String) (s : List Char) : Option (List Char) :=
  match ps with
  | [] => none
  | p :: rest =>
    match stripLit p s with
    | some r => some r
    | none => stripAny rest s

/-- The `([^>]+)>` tail of the match regex, applied just after a `<`: the
capture is the maximal run of non-`>` characters, which must be non-empty
and must be followed by a `>`. -/
def captureAt (s : List Char) : Option (List Char) :=
  let mid := s.takeWhile (fun c => c != '>')
  if 0 < mid.length ∧ (s.drop mid.length).headD ' ' = '>' then some mid else none

/-- The `.*<([^>]+)>` part of the match regex, starting just after the
keyword.  Go regexp semantics are leftmost-first with a greedy `.*` that
does not match a newline, so the `<` consumed by the pattern is the
RIGHTMOST `<` lying before the first newline such that `([^>]+)>` succeeds
after it (the rightmost candidate is tried first, via the recursive call). -/
def bracketCapture : List Char → Option (List Char)
  | [] => none
  | c :: rest =>
    if c = Char.ofNat 10 then none
    else
      match bracketCapture rest with
      | some m => some m
      | none => if c = '<' then captureAt rest else none

/-- Unanchored leftmost search for the full regex
`(MAIL|RCPT) (FROM|TO|From|To):.*<([^>]+)>`: the result is the capture
group of the match starting at the leftmost position where the whole
pattern succeeds, as `regexp.FindAllStringSubmatch(dirty, 1)` returns it. -/
def findAddrMatch : List Char → Option (List Char)
  | [] => none
  | c :: rest =>
    match stripAny keywordAlternatives (c :: rest) with
    | some after =>
      match bracketCapture after with
      | some m => some m
      | none => findAddrMatch rest
    | none => findAddrMatch rest

/-- Go `sanitizeAddr` (main.go lines 129-141): on a match with a non-empty
capture, collapse the disallowed runs of the capture to dots; otherwise
return `defaultAddr`.  (The capture of `([^>]+)` is non-empty by
construction; the length test mirrors the source check
`len(subs[0][3]) > 0`.) -/
def sanitizeAddr (dirty : String) : String :=
  match findAddrMatch dirty.toList with
  | some addr => if 0 < addr.length then String.mk (collapseRuns false addr) else defaultAddr
  | none => defaultAddr

/-- Per-session mutable state of `handleConn` (main.go lines 164-240):
`captured` is the byte content of the temporary capture file `output`,
`replies` are the status lines written to the peer by `replyCommand` inside
the loop (the `220` banner of line 185 is written before the loop and is
not part of this list), `toAddr` is the Go local of line 182, and
`readingData` the flag of line 192. -/
structure SessionState where
  captured : List UInt8
  replies : List ReplyCode
  toAddr : String
  readingData : Bool
deriving DecidableEq

/-- Session state at the top of the `CommandParse` loop on first entry. -/
def initialState : SessionState :=
  { captured := [], replies := [], toAddr := defaultAddr, readingData := false }

/-- Go `string(rawData[:bytesRead])` on ASCII bytes. -/
def bytesToString (l : List UInt8) : String :=
  String.mk (l.map (fun b => Char.ofNat b.toNat))

/-- ASCII bytes of a string, for building concrete peer inputs. -/
def stringToBytes (s : String) : List UInt8 :=
  s.toList.map (fun c => UInt8.ofNat c.toNat)

/-- Body of the `CommandParse` loop of `handleConn` (main.go lines 194-222)
for one successfully read line: first `output.Write(rawData[:bytesRead])`
appends the raw line to the capture, then the dot test may clear
`readingData`, and only if `readingData` is now false is `replyCommand`
invoked and its command switched on.  The boolean result is false exactly
when the `case CommandQuit: break CommandParse` path is taken. -/
def processLine (st : SessionState) (line : List UInt8) : SessionState × Bool :=
  let captured := st.captured ++ line
  let rd := if st.readingData && (line.headD 0 == dotByte) then false else st.readingData
  if rd then
    ({ captured := captured, replies := st.replies, toAddr := st.toAddr, readingData := true }, true)
  else
    let data := bytesToString line
    let rc := replyCommand data
    let replies := st.replies ++ [rc.1]
    match rc.2 with
    | Command.rcpt =>
      ({ captured := captured, replies := replies, toAddr := sanitizeAddr data, readingData := false }, true)
    | Command.data =>
      ({ captured := captured, replies := replies, toAddr := st.toAddr, readingData := true }, true)
    | Command.quit =>
      ({ captured := captured, replies := replies, toAddr := st.toAddr, readingData := false }, false)
    | _ =>
      ({ captured := captured, replies := replies, toAddr := st.toAddr, readingData := false }, true)

/-- Fuel-indexed unfolding of the `CommandParse` loop: iterate `readCommand`
then `processLine` until a read error (`none`) or the QUIT break.  The fuel
only bounds the number of iterations; since every successful `readCommand`
consumes at least one byte of `src`, a fuel of `src.length` can never be
exhausted before the loop exits by itself (`sessionLoopF_fuel` below makes
this precise). -/
def sessionLoopF (cap : Nat) : Nat → SessionState → List UInt8 → SessionState
  | 0, st, _ => st
  | fuel + 1, st, src =>
    match readCommand cap src with
    | none => st
    | some (buf, rest) =>
      if (processLine st buf).2 then sessionLoopF cap fuel (processLine st buf).1 rest
      else (processLine st buf).1

/-- The `CommandParse` loop of `handleConn` (main.go lines 194-222), run on
the whole stream of bytes the peer delivers before its side errors out. -/
def sessionLoop (cap : Nat) (st : SessionState) (src : List UInt8) : SessionState :=
  sessionLoopF cap src.length st src

/-- Size of the Go buffer `rawData := make([]byte, 1024)` (main.go line 191). -/
def rawDataSize : Nat := 1024

/-- Go `path.Join(outputDirectory, messageName)` for a directory without a
trailing slash and a non-empty clean name. -/
def pathJoin (dir name : String) : String := dir ++ "/" ++ name

/-- Finalisation of `handleConn` (main.go lines 223-239): after the loop the
artifact is copied to
`path.Join(outputDirectory, fmt.Sprintf("%v-%v-%v.txt", toAddr, remoteIP, time.Now().Unix()))`
if and only if the capture size is strictly greater than 50 bytes;
otherwise nothing is persisted.  `remoteIP` is the value
`toIPAddress(conn.RemoteAddr())` computed at line 183, and `now` stands for
`time.Now().Unix()`.  The result is the final artifact path, or `none` when
no artifact is written. -/
def finalizeSession (outputDirectory remoteIP : String) (now : Int) (st : SessionState) : Option String :=
  if st.captured.length > 50 then
    some (pathJoin outputDirectory (st.toAddr ++ "-" ++ remoteIP ++ "-" ++ toString now ++ ".txt"))
  else none

/-- Whole-session behaviour of `handleConn` past the spam gate (main.go
lines 174-239): run the command loop from the initial state on the bytes
`src` the peer sends, then finalize.  `remoteAddr` is
`conn.RemoteAddr().String()` and `now` the finalisation timestamp. -/
def runSession (outputDirectory remoteAddr : String) (now : Int) (src : List UInt8) : Option String :=
  finalizeSession outputDirectory (toIPAddress remoteAddr) now
    (sessionLoop rawDataSize initialState src)

/-- The dispatch key of `replyCommand`: upper-cased first whitespace-split
token of the trimmed line (`strings.ToUpper(args[0])` in the source). -/
def firstToken (line : String) : String :=
  String.mk (((splitOnChar ' ' (trimSpace line).toList).headD []).map Char.toUpper)

/-! ### Properties of the line reader -/

/-- If no newline occurs among the bytes that would still fit in the buffer,
the reader never returns successfully: it keeps consuming bytes (storing
none once the buffer is full, and in particular ignoring any newline that
arrives after that point) until the stream fails. -/
theorem readCommandAux_none (cap : Nat) :
    ∀ (src buf : List UInt8),
      newlineByte ∉ src.take (cap - buf.length) →
      readCommandAux cap buf src = none := by
  intro src
  induction src with
  | nil => intro buf _; rfl
  | cons d rest ih =>
    intro buf h
    unfold readCommandAux
    by_cases hlt : buf.length < cap
    · obtain ⟨m, hm⟩ : ∃ m, cap - buf.length = m + 1 :=
        ⟨cap - buf.length - 1, by omega⟩
      rw [hm, List.take_succ_cons] at h
      have hd : ¬ d = newlineByte := by
        intro e; exact h (e ▸ List.mem_cons_self d _)
      rw [if_pos hlt, if_neg hd]
      apply ih
      have hlen : cap - (buf ++ [d]).length = m := by
        simp only [List.length_append, List.length_cons, List.length_nil]
        omega
      rw [hlen]
      intro hmem
      exact h (List.mem_cons_of_mem d hmem)
    · rw [if_neg hlt]
      apply ih
      have h0 : cap - buf.length = 0 := Nat.sub_eq_zero_of_le (Nat.le_of_not_lt hlt)
      simp [h0]

/-- A line whose terminating newline still fits in the remaining buffer
space is returned in full, together with the untouched remainder of the
stream. -/
theorem readCommandAux_newline (cap : Nat) :
    ∀ (pre buf post : List UInt8),
      newlineByte ∉ pre →
      buf.length + pre.length < cap →
      readCommandAux cap buf (pre ++ newlineByte :: post) =
        some (buf ++ pre ++ [newlineByte], post) := by
  intro pre
  induction pre with
  | nil =>
    intro buf post _ hcap
    show readCommandAux cap buf (newlineByte :: post) = _
    unfold readCommandAux
    rw [if_pos (by simpa using hcap), if_pos rfl]
    simp
  | cons c pre ih =>
    intro buf post hnl hcap
    have hc : ¬ c = newlineByte := fun e => hnl (e ▸ List.mem_cons_self c _)
    have hlt : buf.length < cap := by
      simp only [List.length_cons] at hcap; omega
    show readCommandAux cap buf (c :: (pre ++ newlineByte :: post)) = _
    unfold readCommandAux
    rw [if_pos hlt, if_neg hc]
    rw [ih (buf ++ [c]) post (fun hm => hnl (List.mem_cons_of_mem c hm))
      (by simp only [List.length_append, List.length_cons, List.length_nil] at hcap ⊢; omega)]
    simp

/-- The reader never hands back more bytes than the buffer capacity. -/
theorem readCommandAux_length (cap : Nat) :
    ∀ (src buf b rest : List UInt8),
      buf.length ≤ cap →
      readCommandAux cap buf src = some (b, rest) →
      b.length ≤ cap := by
  intro src
  induction src with
  | nil => intro buf b rest _ h; exact absurd h (by simp [readCommandAux])
  | cons d rest0 ih =>
    intro buf b rest hbuf h
    unfold readCommandAux at h
    by_cases hlt : buf.length < cap
    · rw [if_pos hlt] at h
      by_cases hd : d = newlineByte
      · rw [if_pos hd] at h
        obtain ⟨h1, _⟩ := Prod.mk.injEq .. ▸ Option.some.injEq .. ▸ h
        subst h1
        simpa using hlt
      · rw [if_neg hd] at h
        exact ih (buf ++ [d]) b rest (by simpa using hlt) h
    · rw [if_neg hlt] at h
      exact ih buf b rest hbuf h

/-- A successful read consumes at least one byte of the stream. -/
theorem readCommandAux_rest_lt (cap : Nat) :
    ∀ (src buf b rest : List UInt8),
      readCommandAux cap buf src = some (b, rest) →
      rest.length < src.length := by
  intro src
  induction src with
  | nil => intro buf b rest h; exact absurd h (by simp [readCommandAux])
  | cons d rest0 ih =>
    intro buf b rest h
    unfold readCommandAux at h
    by_cases hlt : buf.length < cap
    · rw [if_pos hlt] at h
      by_cases hd : d = newlineByte
      · rw [if_pos hd] at h
        obtain ⟨_, h2⟩ := Prod.mk.injEq .. ▸ Option.some.injEq .. ▸ h
        subst h2
        simp
      · rw [if_neg hd] at h
        exact Nat.lt_trans (ih _ b rest h) (by simp)
    · rw [if_neg hlt] at h
      exact Nat.lt_trans (ih _ b rest h) (by simp)

/-- C6: for a stream whose first newline still fits in the buffer capacity,
`readCommand` succeeds with the buffer holding exactly the bytes up to and
including that newline (the returned byte count is the length of that
buffer, terminator included) and the remaining stream starting right after
it; and when the underlying reads fail before any newline was seen (the
stream `src` is exhausted without a newline), it returns the error case,
discarding all partial data. -/
theorem C6_line_reader (cap : Nat) (pre post src : List UInt8)
    (hnl : newlineByte ∉ pre) (hcap : pre.length + 1 ≤ cap)
    (hsrc : newlineByte ∉ src) :
    readCommand cap (pre ++ newlineByte :: post) = some (pre ++ [newlineByte], post) ∧
    readCommand cap src = none := by
  constructor
  · have h := readCommandAux_newline cap pre [] post hnl (by simp; omega)
    simpa [readCommand] using h
  · apply readCommandAux_none
    intro hm
    exact hsrc (List.take_subset _ _ hm)

/-- Witness for C6 in both cases: the line "hi\n" followed by a further byte
88, and a stream "hi" that ends before any newline. -/
theorem C6_witness :
    readCommand 1024 [104, 105, 10, 88] = some ([104, 105, 10], [88]) ∧
    readCommand 1024 [104, 105] = none :=
  C6_line_reader 1024 [104, 105] [88] [104, 105] (by decide) (by decide) (by decide)

/-- C2 counterexample: with capacity 2 and input "abc\nX", the claim says
the reader consumes exactly "abc\n" and returns, so that the next read
starts at "X" — that is, the result should be `some (buffer, [88])`.  In
the code the newline test is inside the `length < cap(buf)` branch, so once
the two bytes "ab" fill the buffer the terminating newline of the line is
ignored, the remaining byte 88 (the following line) is swallowed as well,
and the call returns only when the stream errors out — yielding `none`,
with count 0. -/
theorem C2_counterexample :
    readCommand 2 [97, 98, 99, 10, 88] = none ∧
    readCommand 2 [97, 98, 99, 10, 88] ≠ some ([97, 98], [88]) := by decide

/-- C2 amended: for a line longer than the capacity `cap` (no newline among
the first `cap` bytes of the stream), the reader does not return at the
line terminator at all: it writes at most `cap` bytes (second conjunct, for
any successful read) and then consumes every remaining byte of the stream
until the underlying read fails, finally returning the error case. -/
theorem C2_truncated_line (cap : Nat) (src src2 b rest : List UInt8)
    (h1 : newlineByte ∉ src.take cap)
    (h2 : readCommand cap src2 = some (b, rest)) :
    readCommand cap src = none ∧ b.length ≤ cap := by
  refine ⟨readCommandAux_none cap src [] (by simpa using h1), ?_⟩
  exact readCommandAux_length cap src2 [] b rest (by simp) h2

/-- Witness for C2 amended at capacity 2, overlong input "abc\nX" and the
successful read of "a\n". -/
theorem C2_witness :
    readCommand 2 [97, 98, 99, 10, 88] = none ∧ ([97, 10] : List UInt8).length ≤ 2 :=
  C2_truncated_line 2 [97, 98, 99, 10, 88] [97, 10] [97, 10] [] (by decide) (by decide)

/-! ### Properties of the address sanitizer -/

/-- Every character produced by the replacement pass lies in the allowed
class `[a-zA-Z0-9@]` or is the replacement dot. -/
theorem collapseRuns_mem :
    ∀ (l : List Char) (b : Bool) (c : Char), c ∈ collapseRuns b l →
      isAllowedChar c = true ∨ c = '.' := by
  intro l
  induction l with
  | nil => intro b c h; exact absurd h (List.not_mem_nil c)
  | cons d rest ih =>
    intro b c h
    unfold collapseRuns at h
    by_cases hd : isAllowedChar d = true
    · rw [if_pos hd] at h
      rcases List.mem_cons.mp h with rfl | h2
      · exact Or.inl hd
      · exact ih false c h2
    · rw [if_neg hd] at h
      by_cases hb : b = true
      · rw [if_pos hb] at h
        exact ih true c h
      · rw [if_neg hb] at h
        rcases List.mem_cons.mp h with rfl | h2
        · exact Or.inr rfl
        · exact ih true c h2

/-- A successful keyword match means one of the eight literal alternatives
is a prefix of the text at the match position; each of them contains a
space, so the text does too. -/
theorem stripAny_space :
    ∀ (ps : List String) (s r : List Char),
      (∀ p ∈ ps, ' ' ∈ p.toList) → stripAny ps s = some r → ' ' ∈ s := by
  intro ps
  induction ps with
  | nil => intro s r _ h; exact absurd h (by simp [stripAny])
  | cons p rest ih =>
    intro s r hsp h
    unfold stripAny at h
    cases hp : stripLit p s with
    | some r2 =>
      unfold stripLit at hp
      by_cases hpre : p.toList.isPrefixOf s
      · obtain ⟨t, ht⟩ := List.isPrefixOf_iff_prefix.mp hpre
        subst ht
        exact List.mem_append_left t (hsp p (List.mem_cons_self p rest))
      · rw [if_neg hpre] at hp
        exact absurd hp (by simp)
    | none =>
      rw [hp] at h
      exact ih s r (fun q hq => hsp q (List.mem_cons_of_mem p hq)) h

/-- Whenever the match regex finds an address, the searched text contains a
space (part of the mandatory `(MAIL|RCPT) ` keyword). -/
theorem findAddrMatch_space :
    ∀ (cs m : List Char), findAddrMatch cs = some m → ' ' ∈ cs := by
  intro cs
  induction cs with
  | nil => intro m h; exact absurd h (by simp [findAddrMatch])
  | cons c rest ih =>
    intro m h
    unfold findAddrMatch at h
    cases hk : stripAny keywordAlternatives (c :: rest) with
    | some after =>
      exact stripAny_space keywordAlternatives (c :: rest) after (by decide) hk
    | none =>
      rw [hk] at h
      exact List.mem_cons_of_mem c (ih m h)

/-- Unfolding of `sanitizeAddr` when the regex does not match. -/
theorem sanitizeAddr_of_none (s : String) (h : findAddrMatch s.toList = none) :
    sanitizeAddr s = defaultAddr := by
  unfold sanitizeAddr
  rw [h]

/-- Unfolding of `sanitizeAddr` on a non-empty capture. -/
theorem sanitizeAddr_of_some (s : String) (m : List Char)
    (h : findAddrMatch s.toList = some m) (hlen : 0 < m.length) :
    sanitizeAddr s = String.mk (collapseRuns false m) := by
  unfold sanitizeAddr
  rw [h]
  simp [hlen]

/-- Unfolding of `sanitizeAddr` on an empty capture. -/
theorem sanitizeAddr_of_some_nil (s : String) (m : List Char)
    (h : findAddrMatch s.toList = some m) (hlen : ¬ 0 < m.length) :
    sanitizeAddr s = defaultAddr := by
  unfold sanitizeAddr
  rw [h]
  simp [hlen]

/-- The output of the sanitizer never contains a space: either it is the
sentinel `invalid@addr`, or it went through the replacement pass which only
emits allowed characters and dots. -/
theorem sanitizeAddr_no_space (s : String) : ' ' ∉ (sanitizeAddr s).toList := by
  cases h : findAddrMatch s.toList with
  | none =>
    rw [sanitizeAddr_of_none s h]
    decide
  | some m =>
    by_cases hlen : 0 < m.length
    · rw [sanitizeAddr_of_some s m h hlen]
      intro hmem
      rcases collapseRuns_mem m false ' ' hmem with h1 | h1
      · exact absurd h1 (by decide)
      · exact absurd h1 (by decide)
    · rw [sanitizeAddr_of_some_nil s m h hlen]
      decide

/-- C5 counterexample: the sanitizer is not idempotent on its own output.
`sanitizeAddr "MAIL FROM:<user@example.com>"` is `"user@example.com"`, but
sanitizing that output again yields the sentinel `"invalid@addr"`, because
the match regex requires a literal `MAIL `/`RCPT ` keyword that no
sanitized output can contain. -/
theorem C5_counterexample :
    sanitizeAddr (sanitizeAddr "MAIL FROM:<user@example.com>") ≠
      sanitizeAddr "MAIL FROM:<user@example.com>" := by decide

/-- C5 amended: a second application of the sanitizer always returns the
sentinel `invalid@addr`, whatever the input; in particular the sanitizer is
idempotent only on inputs whose first sanitization already yields the
sentinel, not on all of its outputs. -/
theorem C5_double_sanitize (s : String) :
    sanitizeAddr (sanitizeAddr s) = defaultAddr := by
  cases h : findAddrMatch (sanitizeAddr s).toList with
  | none => exact sanitizeAddr_of_none _ h
  | some m => exact absurd (findAddrMatch_space _ m h) (sanitizeAddr_no_space s)

/-- C8 counterexample: the FROM:/TO: keyword of the match regex is not
case-insensitive.  On the line `MAIL from:<user@example.com>` the claim
predicts the extraction `"user@example.com"`, but the regex alternatives
are exactly `FROM|TO|From|To` after an upper-case `MAIL `/`RCPT `, so the
lower-case `from:` does not match and the sentinel is returned. -/
theorem C8_counterexample :
    sanitizeAddr "MAIL from:<user@example.com>" = "invalid@addr" ∧
    sanitizeAddr "MAIL from:<user@example.com>" ≠ "user@example.com" := by decide

/-- C8 amended: the sanitizer matches the angle-bracketed address after an
upper-case `MAIL`/`RCPT` followed by one of the four keyword spellings
`FROM:`, `TO:`, `From:`, `To:` (case-sensitive, so for instance lower-case
`from:` does not match); on a non-empty match every run of characters
outside `[A-Za-z0-9@]` is replaced by a single dot
(`"MAIL FROM:<user@example.com>"` yields `"user@example.com"` and
`"RCPT TO:<a!b#c@x.com>"` yields `"a.b.c@x.com"`); on every line without a
match it returns the sentinel `invalid@addr`, and it never fails — its
output always consists of allowed characters and dots only. -/
theorem C8_sanitizer (s : String) (hnom : findAddrMatch s.toList = none) :
    sanitizeAddr "MAIL FROM:<user@example.com>" = "user@example.com" ∧
    sanitizeAddr "RCPT TO:<a!b#c@x.com>" = "a.b.c@x.com" ∧
    sanitizeAddr "RCPT From:<u@e.com>" = "u@e.com" ∧
    sanitizeAddr "MAIL from:<user@example.com>" = defaultAddr ∧
    sanitizeAddr s = defaultAddr ∧
    ∀ (t : String), ∀ c ∈ (sanitizeAddr t).toList, isAllowedChar c = true ∨ c = '.' := by
  refine ⟨by decide, by decide, by decide, by decide, sanitizeAddr_of_none s hnom, ?_⟩
  intro t c hc
  cases h : findAddrMatch t.toList with
  | none =>
    rw [sanitizeAddr_of_none t h] at hc
    have hall : ∀ c ∈ (defaultAddr : String).toList, isAllowedChar c = true ∨ c = '.' := by decide
    exact hall c hc
  | some m =>
    by_cases hlen : 0 < m.length
    · rw [sanitizeAddr_of_some t m h hlen] at hc
      exact collapseRuns_mem m false c hc
    · rw [sanitizeAddr_of_some_nil t m h hlen] at hc
      have hall : ∀ c ∈ (defaultAddr : String).toList, isAllowedChar c = true ∨ c = '.' := by decide
      exact hall c hc

/-- Witness for C8 amended: the line `hello` has no keyword match and
sanitizes to the sentinel. -/
theorem C8_witness : sanitizeAddr "hello" = defaultAddr :=
  (C8_sanitizer "hello" (by decide)).2.2.2.2.1

/-! ### Properties of the command dispatch -/

/-- The reply produced by `replyCommand`, by case analysis on the dispatch
token: the `354` reply for DATA, the `502` reply for EXPN and HELP, the
`221` reply for QUIT, and the generic `250` reply for every other token —
the other recognized verbs and all unknown tokens alike. -/
theorem replyCommand_fst (s : String) :
    (replyCommand s).1 =
      (if firstToken s = "DATA" then ReplyStartMailInput
       else if firstToken s = "EXPN" ∨ firstToken s = "HELP" then ReplyCommandNotImplemented
       else if firstToken s = "QUIT" then ReplyServiceClosing
       else ReplyOkay) := by
  have h : ∀ tok : String,
      (match commandTable tok with
       | some cmd => ((replyTable cmd).getD ReplyCommandNotImplemented, cmd)
       | none => ((ReplyOkay : ReplyCode), Command.ehlo)).1 =
      (if tok = "DATA" then ReplyStartMailInput
       else if tok = "EXPN" ∨ tok = "HELP" then ReplyCommandNotImplemented
       else if tok = "QUIT" then ReplyServiceClosing
       else ReplyOkay) := by
    intro tok
    by_cases h1 : tok = "EHLO"
    · subst h1; decide
    by_cases h2 : tok = "HELO"
    · subst h2; decide
    by_cases h3 : tok = "MAIL"
    · subst h3; decide
    by_cases h4 : tok = "RCPT"
    · subst h4; decide
    by_cases h5 : tok = "DATA"
    · subst h5; decide
    by_cases h6 : tok = "RSET"
    · subst h6; decide
    by_cases h7 : tok = "VRFY"
    · subst h7; decide
    by_cases h8 : tok = "EXPN"
    · subst h8; decide
    by_cases h9 : tok = "HELP"
    · subst h9; decide
    by_cases h10 : tok = "NOOP"
    · subst h10; decide
    by_cases h11 : tok = "QUIT"
    · subst h11; decide
    unfold commandTable
    rw [if_neg h1, if_neg h2, if_neg h3, if_neg h4, if_neg h5, if_neg h6, if_neg h7,
      if_neg h8, if_neg h9, if_neg h10, if_neg h11]
    rw [if_neg h5, if_neg (not_or.mpr ⟨h8, h9⟩), if_neg h11]
  exact h (firstToken s)

/-! ### Properties of the session loop -/

/-- On every control path of the loop body — data capture, RCPT, DATA,
QUIT and all other commands alike — the raw line is appended to the capture
buffer, before any dispatch or mode change touches the rest of the state. -/
theorem processLine_captured (st : SessionState) (line : List UInt8) :
    (processLine st line).1.captured = st.captured ++ line := by
  simp only [processLine]
  split
  · rw [if_neg (fun h => Bool.false_ne_true h)]
    split <;> rfl
  · split
    · rfl
    · split <;> rfl

/-- While not in data-capture mode, the loop body writes exactly one reply:
the one chosen by `replyCommand` for the raw line. -/
theorem processLine_reply (st : SessionState) (line : List UInt8)
    (hrd : st.readingData = false) :
    (processLine st line).1.replies =
      st.replies ++ [(replyCommand (bytesToString line)).1] := by
  simp only [processLine, hrd, Bool.false_and, Bool.false_eq_true, if_false]
  split <;> rfl

/-- The fuel of `sessionLoopF` is irrelevant as soon as it covers the
length of the remaining stream: every successful `readCommand` consumes at
least one byte, so the loop exits before `src.length` iterations. -/
theorem sessionLoopF_fuel (cap : Nat) :
    ∀ (f1 f2 : Nat) (st : SessionState) (src : List UInt8),
      src.length ≤ f1 → src.length ≤ f2 →
      sessionLoopF cap f1 st src = sessionLoopF cap f2 st src := by
  intro f1
  induction f1 with
  | zero =>
    intro f2 st src h1 _
    have hsrc : src = [] := List.eq_nil_of_length_eq_zero (Nat.le_zero.mp h1)
    subst hsrc
    cases f2 <;> rfl
  | succ n ih =>
    intro f2 st src h1 h2
    cases f2 with
    | zero =>
      have hsrc : src = [] := List.eq_nil_of_length_eq_zero (Nat.le_zero.mp h2)
      subst hsrc
      rfl
    | succ m =>
      unfold sessionLoopF
      cases h : readCommand cap src with
      | none => rfl
      | some pr =>
        obtain ⟨buf, rest⟩ := pr
        dsimp only
        have hlt : rest.length < src.length := readCommandAux_rest_lt cap src [] buf rest h
        by_cases hc : (processLine st buf).2 = true
        · rw [if_pos hc, if_pos hc]
          exact ih m (processLine st buf).1 rest (by omega) (by omega)
        · rw [if_neg hc, if_neg hc]

/-- Whatever the fuel, the state reached by the loop extends the starting
capture buffer: the capture is append-only across the whole session. -/
theorem sessionLoopF_captured (cap : Nat) :
    ∀ (fuel : Nat) (st : SessionState) (src : List UInt8),
      ∃ t, (sessionLoopF cap fuel st src).captured = st.captured ++ t := by
  intro fuel
  induction fuel with
  | zero => intro st src; exact ⟨[], by simp [sessionLoopF]⟩
  | succ n ih =>
    intro st src
    unfold sessionLoopF
    cases h : readCommand cap src with
    | none => exact ⟨[], by simp⟩
    | some pr =>
      obtain ⟨buf, rest⟩ := pr
      dsimp only
      by_cases hc : (processLine st buf).2 = true
      · rw [if_pos hc]
        obtain ⟨t, ht⟩ := ih (processLine st buf).1 rest
        refine ⟨buf ++ t, ?_⟩
        rw [ht, processLine_captured, List.append_assoc]
      · rw [if_neg hc]
        exact ⟨buf, processLine_captured st buf⟩

/-! ### Properties of the reputation checker -/

/-- The blocklist loop reports `true` exactly when some configured zone
resolves for the given prefix. -/
theorem checkBlocklist_iff (lookup : String → Bool) (ip : String) :
    ∀ zones : List String,
      (checkBlocklist lookup ip zones = true ↔ ∃ z ∈ zones, lookup (ip ++ z) = true) := by
  intro zones
  induction zones with
  | nil => simp [checkBlocklist]
  | cons z rest ih =>
    by_cases h : lookup (ip ++ z) = true
    · simp [checkBlocklist, h]
    · simp [checkBlocklist, h, ih]

/-- Short-circuiting: among the DNS queries the loop actually performs, all
but possibly the last one failed — once a zone resolves, no further zone is
queried. -/
theorem blocklistQueries_dropLast (lookup : String → Bool) (ip : String) :
    ∀ zones : List String, ∀ q ∈ (blocklistQueries lookup ip zones).dropLast,
      lookup q = false := by
  intro zones
  induction zones with
  | nil => intro q hq; exact absurd hq (by simp [blocklistQueries])
  | cons z rest ih =>
    intro q hq
    unfold blocklistQueries at hq
    by_cases h : lookup (ip ++ z) = true
    · rw [if_pos h] at hq
      exact absurd hq (by simp)
    · rw [if_neg h] at hq
      cases hQ : blocklistQueries lookup ip rest with
      | nil =>
        rw [hQ] at hq
        exact absurd hq (by simp)
      | cons a as =>
        rw [hQ, List.dropLast_cons₂] at hq
        rcases List.mem_cons.mp hq with rfl | h2
        · exact Bool.eq_false_iff.mpr h
        · exact ih q (by rw [hQ]; exact h2)

/-! ### Claim-level theorems -/

/-- C1 counterexample: the claim says every line received in data-capture
mode is answered with exactly one okay-style reply.  In the code the
dispatch `replyCommand` is guarded by `if !readingData`, so a body line
that does not begin with a dot produces NO reply at all: processing the
line "hello\n" in data mode leaves the reply list empty, and the session
"DATA\nhello\n.\nQUIT\n" emits only three replies (354 for DATA, 250 for
the dot line, 221 for QUIT) for its four lines — none for the body line. -/
theorem C1_counterexample :
    (processLine
        { captured := [], replies := [], toAddr := defaultAddr, readingData := true }
        (stringToBytes "hello\n")).1.replies = [] ∧
    (sessionLoop rawDataSize initialState (stringToBytes "DATA\nhello\n.\nQUIT\n")).replies =
      [ReplyStartMailInput, ReplyOkay, ReplyServiceClosing] := by decide

/-- C1 amended: in data-capture mode a line not beginning with a dot is
appended verbatim to the capture buffer and nothing else happens — no
dispatch, no reply, no mode change, and the loop continues; only a line
whose first byte is the dot leaves data mode and is then dispatched,
receiving the single reply `replyCommand` chooses for it. -/
theorem C1_data_mode (st st2 : SessionState) (line line2 : List UInt8)
    (h1 : st.readingData = true) (h2 : ¬ line.headD 0 = dotByte)
    (h3 : st2.readingData = true) (h4 : line2.headD 0 = dotByte) :
    processLine st line = ({ st with captured := st.captured ++ line }, true) ∧
    (processLine st2 line2).1.replies =
      st2.replies ++ [(replyCommand (bytesToString line2)).1] := by
  constructor
  · obtain ⟨cap0, rep0, ta0, rd0⟩ := st
    simp only at h1
    subst h1
    have hbeq : (line.headD 0 == dotByte) = false := beq_eq_false_iff_ne.mpr h2
    simp only [processLine]
    rw [hbeq]
    rfl
  · obtain ⟨cap0, rep0, ta0, rd0⟩ := st2
    simp only at h3
    subst h3
    have hbeq : (line2.headD 0 == dotByte) = true := beq_iff_eq.mpr h4
    simp only [processLine, hbeq, Bool.true_and, if_pos, Bool.false_eq_true, if_false]
    split <;> rfl

/-- Witness for C1 amended: a body line in data mode is captured with no
reply, and the dot line is dispatched with one reply. -/
theorem C1_witness :
    processLine
        { captured := [], replies := [], toAddr := defaultAddr, readingData := true }
        (stringToBytes "body line\n") =
      ({ captured := stringToBytes "body line\n", replies := [], toAddr := defaultAddr,
         readingData := true }, true) ∧
    (processLine
        { captured := [], replies := [], toAddr := defaultAddr, readingData := true }
        (stringToBytes ".\n")).1.replies =
      [(replyCommand (bytesToString (stringToBytes ".\n"))).1] :=
  C1_data_mode
    { captured := [], replies := [], toAddr := defaultAddr, readingData := true }
    { captured := [], replies := [], toAddr := defaultAddr, readingData := true }
    (stringToBytes "body line\n") (stringToBytes ".\n")
    rfl (by decide) rfl (by decide)

/-- C3 counterexample: on the full end-to-end session of the spec (EHLO,
MAIL, RCPT, DATA, body, dot, QUIT — 75 captured bytes, above the floor)
from peer address `1.2.3.4:5678` at unix time 100, the artifact path the
code produces contains the REVERSED dotted form `4.3.2.1` computed by
`toIPAddress` for DNSBL queries, not the peer IP `1.2.3.4` that the claim
names. -/
theorem C3_counterexample :
    runSession "out" "1.2.3.4:5678" 100
        (stringToBytes
          "EHLO x\r\nMAIL FROM:<a@b.com>\r\nRCPT TO:<c@d.com>\r\nDATA\r\nhello body\r\n.\r\nQUIT\r\n") =
      some "out/c@d.com-4.3.2.1-100.txt" ∧
    runSession "out" "1.2.3.4:5678" 100
        (stringToBytes
          "EHLO x\r\nMAIL FROM:<a@b.com>\r\nRCPT TO:<c@d.com>\r\nDATA\r\nhello body\r\n.\r\nQUIT\r\n") ≠
      some "out/c@d.com-1.2.3.4-100.txt" := by decide

/-- C3 amended: on graceful termination an artifact is written if and only
if the captured byte count strictly exceeds the 50-byte floor (in
particular a session that captured nothing persists nothing), and its path
is `<outputDirectory>/<last sanitized RCPT address or sentinel>-<reversed
dotted-octet form of the peer IP as computed by toIPAddress>-<unix
seconds>.txt`. -/
theorem C3_artifact (dir remote : String) (now : Int) (st stEmpty : SessionState)
    (hbig : st.captured.length > 50) (hempty : stEmpty.captured = []) :
    finalizeSession dir (toIPAddress remote) now st =
      some (dir ++ "/" ++ (st.toAddr ++ "-" ++ toIPAddress remote ++ "-" ++ toString now ++ ".txt")) ∧
    finalizeSession dir (toIPAddress remote) now stEmpty = none ∧
    ∀ st2 : SessionState,
      (finalizeSession dir (toIPAddress remote) now st2 ≠ none ↔ st2.captured.length > 50) := by
  refine ⟨?_, ?_, ?_⟩
  · unfold finalizeSession pathJoin
    rw [if_pos hbig]
  · unfold finalizeSession
    rw [if_neg (by rw [hempty]; decide)]
  · intro st2
    unfold finalizeSession
    by_cases h : st2.captured.length > 50
    · rw [if_pos h]
      simp [h]
    · rw [if_neg h]
      simp [h]

/-- Witness for C3 amended: a 60-byte capture is persisted under the
reversed-IP path, a zero-byte capture is not persisted. -/
theorem C3_witness :
    finalizeSession "out" (toIPAddress "1.2.3.4:5678") 100
        { captured := List.replicate 60 120, replies := [], toAddr := "c@d.com",
          readingData := false } =
      some "out/c@d.com-4.3.2.1-100.txt" ∧
    finalizeSession "out" (toIPAddress "1.2.3.4:5678") 100
        { captured := [], replies := [], toAddr := defaultAddr, readingData := false } =
      none := by
  have h := C3_artifact "out" "1.2.3.4:5678" 100
    { captured := List.replicate 60 120, replies := [], toAddr := "c@d.com",
      readingData := false }
    { captured := [], replies := [], toAddr := defaultAddr, readingData := false }
    (by decide) rfl
  exact ⟨h.1, h.2.1⟩

/-- C4 counterexample: the claim says unknown first tokens yield a
sentinel command value distinct from every recognized command, in
particular from EHLO.  The `Command` type of the source has no such
member: the map miss leaves `cmd` at the zero value `CommandEhlo`, so the
unknown token XYZZY parses to exactly the same command value as an EHLO
line. -/
theorem C4_counterexample :
    (replyCommand "XYZZY").2 = Command.ehlo ∧
    (replyCommand "XYZZY").2 = (replyCommand "EHLO localhost").2 := by decide

/-- C4 amended: the `Command` enumeration consists of exactly the eleven
members Ehlo..Quit, with no UNKNOWN sentinel; for every line whose
dispatch token misses the command table, `replyCommand` still writes the
generic okay reply but returns the zero value `Command.ehlo` — the same
value as for an EHLO/HELO line. -/
theorem C4_no_unknown (line : String)
    (h : commandTable (firstToken line) = none) :
    replyCommand line = (ReplyOkay, Command.ehlo) ∧
    ∀ c : Command,
      c ∈ [Command.ehlo, Command.helo, Command.mail, Command.rcpt, Command.data,
        Command.rset, Command.vrfy, Command.expn, Command.help, Command.noop,
        Command.quit] := by
  constructor
  · unfold firstToken at h
    simp only [replyCommand]
    rw [h]
  · intro c
    cases c <;> decide

/-- Witness for C4 amended at the unknown verb XYZZY. -/
theorem C4_witness : replyCommand "XYZZY hello" = (ReplyOkay, Command.ehlo) :=
  (C4_no_unknown "XYZZY hello" (by decide)).1

/-- C7: in non-data mode the loop body writes exactly one reply per line
(first conjunct), and the reply value is a function of the upper-cased
first token: DATA gets the 354 reply, EXPN and HELP get the 502 reply,
QUIT gets the 221 reply, and every other token — EHLO, HELO, MAIL, RCPT,
RSET, VRFY, NOOP and all unrecognized verbs — gets the generic 250 okay
reply. -/
theorem C7_reply_policy (st : SessionState) (line : List UInt8)
    (hrd : st.readingData = false) :
    (processLine st line).1.replies =
      st.replies ++ [(replyCommand (bytesToString line)).1] ∧
    ∀ s : String,
      (replyCommand s).1 =
        (if firstToken s = "DATA" then ReplyStartMailInput
         else if firstToken s = "EXPN" ∨ firstToken s = "HELP" then ReplyCommandNotImplemented
         else if firstToken s = "QUIT" then ReplyServiceClosing
         else ReplyOkay) :=
  ⟨processLine_reply st line hrd, replyCommand_fst⟩

/-- Witness for C7: a NOOP line in command mode produces exactly its one
okay reply. -/
theorem C7_witness :
    (processLine initialState (stringToBytes "NOOP\r\n")).1.replies =
      [(replyCommand (bytesToString (stringToBytes "NOOP\r\n"))).1] :=
  (C7_reply_policy initialState (stringToBytes "NOOP\r\n") rfl).1

/-- C9: the peer is classified untrusted exactly when some configured
blocklist zone, appended to the reversed dotted-octet form of the peer IP,
has a successful DNS lookup (first conjunct); it is classified trusted
exactly when every zone lookup fails, whatever the failure — errors are
never propagated, they just count as not listed (second conjunct); the
zone loop short-circuits, performing no further query after a success
(third conjunct); and `toIPAddress` indeed produces the reversed
dotted-octet form (last conjunct). -/
theorem C9_reputation (lookup : String → Bool) (addr : String) :
    (isSpammerAddr lookup addr = true ↔
      ∃ z ∈ serverBlocklist, lookup (toIPAddress addr ++ z) = true) ∧
    (isSpammerAddr lookup addr = false ↔
      ∀ z ∈ serverBlocklist, lookup (toIPAddress addr ++ z) = false) ∧
    (∀ q ∈ (blocklistQueries lookup (toIPAddress addr) serverBlocklist).dropLast,
      lookup q = false) ∧
    toIPAddress "93.184.216.34:41000" = "34.216.184.93" := by
  refine ⟨checkBlocklist_iff lookup (toIPAddress addr) serverBlocklist, ?_,
    blocklistQueries_dropLast lookup (toIPAddress addr) serverBlocklist, by decide⟩
  unfold isSpammerAddr
  rw [← Bool.not_eq_true, checkBlocklist_iff lookup (toIPAddress addr) serverBlocklist]
  push_neg
  simp [Bool.not_eq_true]

/-- C10: the capture buffer is append-only.  Every loop iteration appends
the raw line it read to the capture buffer before any dispatch or mode
change (first conjunct, which holds in command mode and data mode alike,
dot-terminator lines included), and consequently the buffer at the start of
the loop is a prefix of the buffer after any number of further steps
(second conjunct). -/
theorem C10_append_only (st : SessionState) (line src : List UInt8) (cap : Nat) :
    (processLine st line).1.captured = st.captured ++ line ∧
    ∃ t, (sessionLoop cap st src).captured = st.captured ++ t :=
  ⟨processLine_captured st line, sessionLoopF_captured cap src.length st src⟩

/-! ### Concrete evaluation checks

Sanity checks that the embedded definitions compute the values the spec
and the source examples predict, each evaluated by the kernel. -/

example : replyCommand "EHLO example.com" = (ReplyOkay, Command.ehlo) := by decide
example : replyCommand "helo x" = (ReplyOkay, Command.ehlo) := by decide
example : replyCommand "DATA" = (ReplyStartMailInput, Command.data) := by decide
example : replyCommand "quit" = (ReplyServiceClosing, Command.quit) := by decide
example : replyCommand "HELP" = (ReplyCommandNotImplemented, Command.help) := by decide
example : replyCommand "XYZZY stuff" = (ReplyOkay, Command.ehlo) := by decide
example : readCommand 1024 [97, 98, 10, 99] = some ([97, 98, 10], [99]) := by decide
example : readCommand 2 [97, 98, 99, 10, 88] = none := by decide
example : readCommand 4 [97, 98] = none := by decide
example : toIPAddress "1.2.3.4:5678" = "4.3.2.1" := by decide
example : toIPAddress "93.184.216.34:41000" = "34.216.184.93" := by decide
example : sanitizeAddr "MAIL FROM:<user@example.com>" = "user@example.com" := by decide
example : sanitizeAddr "RCPT TO:<a!b#c@x.com>" = "a.b.c@x.com" := by decide
example : sanitizeAddr "RCPT To:<a@b>" = "a@b" := by decide
example : sanitizeAddr "MAIL from:<user@example.com>" = "invalid@addr" := by decide
example : sanitizeAddr "no address here" = "invalid@addr" := by decide
example : sanitizeAddr "user@example.com" = "invalid@addr" := by decide
example : sanitizeAddr "MAIL FROM:<>" = "invalid@addr" := by decide
example : sanitizeAddr "MAIL FROM: x <a@b> y <c@d>" = "c@d" := by decide
example :
    (sessionLoop rawDataSize initialState (stringToBytes "DATA\nhello\n.\nQUIT\n")).replies =
      [ReplyStartMailInput, ReplyOkay, ReplyServiceClosing] := by decide
example :
    (sessionLoop rawDataSize initialState (stringToBytes "RCPT TO:<c@d.com>\r\n")).toAddr =
      "c@d.com" := by decide
example :
    runSession "out" "1.2.3.4:5678" 100
      (stringToBytes
        "EHLO x\r\nMAIL FROM:<a@b.com>\r\nRCPT TO:<c@d.com>\r\nDATA\r\nhello body\r\n.\r\nQUIT\r\n") =
      some "out/c@d.com-4.3.2.1-100.txt" := by decide
